import Mathlib

/-!
Verification development for the portfolio risk-metrics engine of
`src/backend/server.py` (functions `safe_float`, `clean_data_for_json`,
`calculate_portfolio_metrics`).

Modelling conventions:
- A Python float is idealized as an exact number together with the IEEE
  special values: `EFloat α` is either a finite value of `α`, `nan`,
  `inf` or `ninf`.  Rounding and overflow of IEEE doubles are not
  modelled; the places where the reference code can produce a special
  value exactly (division by zero in `pct_change` and in the drawdown
  quotient, and the small-sample guards inside the pandas skew/kurtosis
  estimators) are modelled explicitly.
- The return-series layer works over `ℚ` (every IEEE double is a
  rational number), so it is computable and decidable on concrete
  inputs.  Real numbers enter only through `Real.sqrt` in the
  volatility, downside-volatility and skewness formulas.
- `historical_data` is a list of dicts of which the code reads only the
  `value` column; it is modelled as the list of those values.
-/

/-- Idealized Python float: a finite value of `α`, or one of the IEEE
special values not-a-number, plus infinity, minus infinity. -/
inductive EFloat (α : Type) where
  | fin (x : α)
  | nan
  | inf
  | ninf
deriving DecidableEq, Repr

namespace EFloat

/-- `pd.isna` on a float: true exactly on not-a-number. -/
def isna : EFloat α → Bool
  | .nan => true
  | _ => false

/-- `np.isinf`: true exactly on the two infinities. -/
def isinf : EFloat α → Bool
  | .inf => true
  | .ninf => true
  | _ => false

/-- True exactly on finite values. -/
def isFiniteB : EFloat α → Bool
  | .fin _ => true
  | _ => false

/-- Extract the finite value, if any. -/
def toFin : EFloat α → Option α
  | .fin x => some x
  | _ => none

/-- The finite value of a float known to be finite (`0` otherwise);
used to model a Python local that holds an already-normalized float. -/
def toR : EFloat ℝ → ℝ
  | .fin x => x
  | _ => 0

/-- Python `abs` on a float: `abs(nan) = nan`, `abs(±inf) = inf`. -/
def abs : EFloat ℝ → EFloat ℝ
  | .fin x => .fin |x|
  | .nan => .nan
  | .inf => .inf
  | .ninf => .inf

/-- Embed a rational-valued float into a real-valued float. -/
def map (f : α → β) : EFloat α → EFloat β
  | .fin x => .fin (f x)
  | .nan => .nan
  | .inf => .inf
  | .ninf => .ninf

end EFloat

/-- `safe_float(value, default)` from `server.py`: replace not-a-number
or infinite values by the default, return the value otherwise. -/
def safe_float (value default : EFloat α) : EFloat α :=
  if value.isna || value.isinf then default else value

/-- One step of `pct_change`: the simple return of `cur` relative to
`prev`, with the IEEE outcome of the division when `prev = 0`
(`0/0` is not-a-number, `x/0` is a signed infinity, and subtracting `1`
from a special value leaves it unchanged). -/
def divReturn (prev cur : ℚ) : EFloat ℚ :=
  if prev = 0 then
    (if cur = 0 then .nan else if 0 < cur then .inf else .ninf)
  else .fin (cur / prev - 1)

/-- `df['value'].pct_change()` (line 393), dropping the leading
not-a-number slot that has no predecessor: one raw return per
consecutive pair of valuations, in traversal order. -/
def rawReturns (vals : List ℚ) : List (EFloat ℚ) :=
  List.zipWith divReturn vals vals.tail

/-- Lines 393-397: the usable return series — raw returns with every
not-a-number or infinite entry removed outright. -/
def buildReturns (vals : List ℚ) : List ℚ :=
  (rawReturns vals).filterMap EFloat.toFin

/-- `np.mean`: sum divided by length (only ever used on nonempty lists
by the calculator; `ℚ` division by zero is irrelevant junk). -/
def meanQ (rs : List ℚ) : ℚ := rs.sum / rs.length

/-- Sum of `k`-th powers of deviations from the mean, the building
block of `np.std` and of the pandas skew/kurtosis estimators. -/
def centralMoment (rs : List ℚ) (k : ℕ) : ℚ :=
  (rs.map (fun r => (r - meanQ rs) ^ k)).sum

/-- `np.var` with its default `ddof = 0`: mean squared deviation. -/
def varQ (rs : List ℚ) : ℚ := centralMoment rs 2 / rs.length

/-- `np.std` with its default `ddof = 0`: square root of `varQ`. -/
noncomputable def stdR (rs : List ℚ) : ℝ := Real.sqrt ((varQ rs : ℚ) : ℝ)

/-- `np.percentile(rs, p)` with the default linear interpolation:
sort ascending, take the fractional rank `p/100 * (n-1)` and
interpolate between the two neighbouring order statistics. -/
def percentileQ (rs : List ℚ) (p : ℚ) : ℚ :=
  let sorted := rs.mergeSort (fun a b => a ≤ b)
  let rank : ℚ := p / 100 * ((rs.length : ℚ) - 1)
  let l : ℕ := (⌊rank⌋).toNat
  sorted.getD l 0 + (rank - (l : ℚ)) * (sorted.getD (l + 1) 0 - sorted.getD l 0)

/-- `(1 + pd.Series(returns)).cumprod()` (line 425): the synthetic
wealth index, one cumulative product per return. -/
def wealth (rs : List ℚ) : List ℚ :=
  ((rs.map (fun r => 1 + r)).scanl (fun a b => a * b) 1).tail

/-- `cumulative_returns.expanding().max()` (line 426): running maximum
of the wealth index. -/
def runningMax : List ℚ → List ℚ
  | [] => []
  | x :: xs => List.scanl max x xs

/-- One entry of `(cumulative_returns - running_max) / running_max`
(line 427), with the IEEE outcome when the running maximum is zero. -/
def ddE (c m : ℚ) : EFloat ℚ :=
  if m = 0 then
    (if c - m = 0 then .nan else if 0 < c - m then .inf else .ninf)
  else .fin ((c - m) / m)

/-- The drawdown series of line 427. -/
def drawdowns (rs : List ℚ) : List (EFloat ℚ) :=
  List.zipWith ddE (wealth rs) (runningMax (wealth rs))

/-- `pandas.Series.min()` with its default `skipna=True`: the minimum
of the finite entries, or not-a-number when there is none. -/
def minSkipNa (xs : List (EFloat ℚ)) : EFloat ℚ :=
  match xs.filterMap EFloat.toFin with
  | [] => .nan
  | y :: ys => .fin (ys.foldl min y)

/-- `pd.Series(returns).skew()` (line 440), following the pandas
`nanskew` estimator: `(n * sqrt(n-1) / (n-2)) * (M3 / M2^1.5)` with
`Mk` the sums of deviation powers; the result is forced to `0` when
`M2 = 0` and to not-a-number when the count is below 3.  (The pandas
floating-point-error correction step, which exists only to cancel
rounding noise absent from this exact model, is not modelled.) -/
noncomputable def skewE (rs : List ℚ) : EFloat ℝ :=
  if rs.length < 3 then .nan
  else if centralMoment rs 2 = 0 then .fin 0
  else
    .fin (((rs.length : ℝ) * Real.sqrt ((rs.length : ℝ) - 1) / ((rs.length : ℝ) - 2)) *
      ((centralMoment rs 3 : ℝ) /
        ((centralMoment rs 2 : ℝ) * Real.sqrt ((centralMoment rs 2 : ℚ) : ℝ))))

/-- The finite branch of the pandas `nankurt` estimator:
`n(n+1)(n-1) * M4 / ((n-2)(n-3) * M2^2) - 3(n-1)^2 / ((n-2)(n-3))`. -/
def kurtQ (rs : List ℚ) : ℚ :=
  ((rs.length : ℚ) * ((rs.length : ℚ) + 1) * ((rs.length : ℚ) - 1) * centralMoment rs 4) /
      (((rs.length : ℚ) - 2) * ((rs.length : ℚ) - 3) * (centralMoment rs 2) ^ 2) -
    3 * ((rs.length : ℚ) - 1) ^ 2 / (((rs.length : ℚ) - 2) * ((rs.length : ℚ) - 3))

/-- `pd.Series(returns).kurtosis()` (line 441), following pandas
`nankurt`: excess kurtosis, forced to `0` when its denominator
`(n-2)(n-3)M2^2` vanishes and to not-a-number when the count is
below 4. -/
def kurtE (rs : List ℚ) : EFloat ℚ :=
  if rs.length < 4 then .nan
  else if (((rs.length : ℚ) - 2) * ((rs.length : ℚ) - 3) * (centralMoment rs 2) ^ 2) = 0 then
    .fin 0
  else .fin (kurtQ rs)

/-- The named constant of line 431 (`risk_free_rate = 0.02`); a local
of the calculator, not a parameter of it. -/
noncomputable def risk_free_rate : ℝ := 0.02

/-- Line 413: `volatility = safe_float(np.std(returns) * np.sqrt(252), 0.0)`. -/
noncomputable def volatilityE (rs : List ℚ) : EFloat ℝ :=
  safe_float (.fin (stdR rs * Real.sqrt 252)) (.fin 0)

/-- Line 414: `mean_return = safe_float(np.mean(returns) * 252, 0.0)`. -/
noncomputable def mean_returnE (rs : List ℚ) : EFloat ℝ :=
  safe_float (.fin ((meanQ rs * 252 : ℚ) : ℝ)) (.fin 0)

/-- Line 417: `var_95 = safe_float(np.percentile(returns, 5) * portfolio.total_value_usd, 0.0)`. -/
noncomputable def var_95E (rs : List ℚ) (tv : ℚ) : EFloat ℝ :=
  safe_float (.fin ((percentileQ rs 5 * tv : ℚ) : ℝ)) (.fin 0)

/-- Lines 420-422: the returns at or below the 5th percentile, their
mean scaled by total value when that subset is nonempty, else `0.0`,
all through `safe_float`. -/
noncomputable def cvar_95E (rs : List ℚ) (tv : ℚ) : EFloat ℝ :=
  safe_float
    (if 0 < (rs.filter (fun r => r ≤ percentileQ rs 5)).length then
      .fin ((meanQ (rs.filter (fun r => r ≤ percentileQ rs 5)) * tv : ℚ) : ℝ)
    else .fin 0)
    (.fin 0)

/-- Line 428: `max_drawdown = safe_float(drawdown.min(), 0.0)`. -/
noncomputable def max_drawdownE (rs : List ℚ) : EFloat ℝ :=
  safe_float ((minSkipNa (drawdowns rs)).map (fun q : ℚ => (q : ℝ))) (.fin 0)

/-- Line 432: the Sharpe ratio with the zero-volatility guard, the
division using the already-normalized locals of lines 413-414. -/
noncomputable def sharpe_ratioE (rs : List ℚ) : EFloat ℝ :=
  safe_float
    (if 0 < (volatilityE rs).toR then
      .fin (((mean_returnE rs).toR - risk_free_rate) / (volatilityE rs).toR)
    else .fin 0)
    (.fin 0)

/-- Line 435: `downside_returns = returns[returns < 0]`. -/
def downside (rs : List ℚ) : List ℚ := rs.filter (fun r => r < 0)

/-- Line 436: annualized standard deviation over the strictly negative
returns, `0` when there are none. -/
noncomputable def downside_volatilityE (rs : List ℚ) : EFloat ℝ :=
  safe_float
    (if 0 < (downside rs).length then .fin (stdR (downside rs) * Real.sqrt 252)
    else .fin 0)
    (.fin 0)

/-- Line 437: the Sortino ratio with the zero-denominator guard. -/
noncomputable def sortino_ratioE (rs : List ℚ) : EFloat ℝ :=
  safe_float
    (if 0 < (downside_volatilityE rs).toR then
      .fin (((mean_returnE rs).toR - risk_free_rate) / (downside_volatilityE rs).toR)
    else .fin 0)
    (.fin 0)

/-- Line 440: `skewness = safe_float(pd.Series(returns).skew(), 0.0)`. -/
noncomputable def skewnessE (rs : List ℚ) : EFloat ℝ :=
  safe_float (skewE rs) (.fin 0)

/-- Line 441: `kurtosis = safe_float(pd.Series(returns).kurtosis(), 0.0)`. -/
noncomputable def kurtosisE (rs : List ℚ) : EFloat ℝ :=
  safe_float ((kurtE rs).map (fun q : ℚ => (q : ℝ))) (.fin 0)

/-- The slice of the `Portfolio` model read by the calculator. -/
structure Portfolio where
  id : String
  total_value_usd : ℚ

/-- The `RiskMetrics` record (fields of `server.py`, line 87 onward,
restricted to the ones the calculator fills). -/
structure RiskMetrics where
  portfolio_id : String
  value_at_risk : EFloat ℝ
  conditional_var : EFloat ℝ
  max_drawdown : EFloat ℝ
  sharpe_ratio : EFloat ℝ
  sortino_ratio : EFloat ℝ
  volatility : EFloat ℝ
  skewness : EFloat ℝ
  kurtosis : EFloat ℝ

/-- The all-zero record returned on the degenerate and exception
paths (lines 376-387, 399-410, 455-467). -/
def zeroMetrics (pid : String) : RiskMetrics :=
  { portfolio_id := pid
    value_at_risk := .fin 0
    conditional_var := .fin 0
    max_drawdown := .fin 0
    sharpe_ratio := .fin 0
    sortino_ratio := .fin 0
    volatility := .fin 0
    skewness := .fin 0
    kurtosis := .fin 0 }

/-- `calculate_portfolio_metrics` (lines 373-467): the risk-metrics
calculator.  `historical_data` is the list of the `value` column. -/
noncomputable def calculate_portfolio_metrics (portfolio : Portfolio)
    (historical_data : List ℚ) : RiskMetrics :=
  if historical_data = [] then zeroMetrics portfolio.id
  else
    let returns := buildReturns historical_data
    if returns.length < 2 then zeroMetrics portfolio.id
    else
      { portfolio_id := portfolio.id
        value_at_risk := (var_95E returns portfolio.total_value_usd).abs
        conditional_var := (cvar_95E returns portfolio.total_value_usd).abs
        max_drawdown := (max_drawdownE returns).abs
        sharpe_ratio := sharpe_ratioE returns
        sortino_ratio := sortino_ratioE returns
        volatility := volatilityE returns
        skewness := skewnessE returns
        kurtosis := kurtosisE returns }

/-- `np.percentile` raises on an empty array; this checked wrapper
returns `none` exactly there, modelling the one operation of the body
that can raise on well-formed input. -/
def percentileOpt (rs : List ℚ) (p : ℚ) : Option ℚ :=
  if rs = [] then none else some (percentileQ rs p)

/-- The calculator body with its raising step made explicit: it
returns `none` exactly when an exception would escape the body of the
`try` block of lines 375-453. -/
noncomputable def calcChecked (portfolio : Portfolio)
    (historical_data : List ℚ) : Option RiskMetrics :=
  if historical_data = [] then some (zeroMetrics portfolio.id)
  else
    let returns := buildReturns historical_data
    if returns.length < 2 then some (zeroMetrics portfolio.id)
    else
      match percentileOpt returns 5 with
      | none => none
      | some p5 =>
        some
          { portfolio_id := portfolio.id
            value_at_risk := (safe_float (.fin ((p5 * portfolio.total_value_usd : ℚ) : ℝ)) (.fin 0)).abs
            conditional_var :=
              (safe_float
                (if 0 < (returns.filter (fun r => r ≤ p5)).length then
                  .fin ((meanQ (returns.filter (fun r => r ≤ p5)) * portfolio.total_value_usd : ℚ) : ℝ)
                else .fin 0)
                (.fin 0)).abs
            max_drawdown := (max_drawdownE returns).abs
            sharpe_ratio := sharpe_ratioE returns
            sortino_ratio := sortino_ratioE returns
            volatility := volatilityE returns
            skewness := skewnessE returns
            kurtosis := kurtosisE returns }

/-- A Python value as seen by `clean_data_for_json`: floats, a few
non-numeric scalars, `None`, keyed mappings and ordered sequences. -/
inductive PyVal where
  | floatV (v : EFloat ℚ)
  | intV (n : ℤ)
  | strV (s : String)
  | boolV (b : Bool)
  | noneV
  | dictV (kvs : List (String × PyVal))
  | listV (xs : List PyVal)

/-- `clean_data_for_json` (lines 360-371): recurse through dict values
and list elements, normalize floats through `safe_float`, map the
scalar missing value to `None`, leave other scalars untouched. -/
def clean_data_for_json : PyVal → PyVal
  | .dictV kvs =>
    .dictV (kvs.attach.map (fun kv => (kv.1.1, clean_data_for_json kv.1.2)))
  | .listV xs => .listV (xs.attach.map (fun x => clean_data_for_json x.1))
  | .floatV v => .floatV (safe_float v (.fin 0))
  | .noneV => .noneV
  | .intV n => .intV n
  | .strV s => .strV s
  | .boolV b => .boolV b
decreasing_by
  · obtain ⟨⟨a, b⟩, hm⟩ := kv
    have h1 := List.sizeOf_lt_of_mem hm
    simp only [PyVal.dictV.sizeOf_spec, Prod.mk.sizeOf_spec] at h1 ⊢
    omega
  · obtain ⟨a, hm⟩ := x
    have h1 := List.sizeOf_lt_of_mem hm
    simp only [PyVal.listV.sizeOf_spec] at h1 ⊢
    omega

/-- Spec-side mean of the return series, stated directly over the
reals: the sum of the returns divided by their number. -/
noncomputable def specMean (rs : List ℚ) : ℝ :=
  (rs.map (fun q : ℚ => (q : ℝ))).sum / rs.length

/-- Spec-side daily standard deviation of the return series, stated
directly over the reals: the square root of the mean squared deviation
of the sample. -/
noncomputable def specDailyStd (rs : List ℚ) : ℝ :=
  Real.sqrt ((rs.map (fun q : ℚ => ((q : ℝ) - specMean rs) ^ 2)).sum / rs.length)

/-- Claim C3 spec-side return builder, written from the words of the
spec: for each index `i` past the first valuation, the simple return
`v_i / v_(i-1) - 1`; the entry is removed outright (not replaced)
exactly when it would be non-finite, which for exact inputs means the
predecessor valuation is zero. -/
def specReturns (vals : List ℚ) : List ℚ :=
  (List.range (vals.length - 1)).filterMap (fun i =>
    if vals.getD i 0 = 0 then none
    else some (vals.getD (i + 1) 0 / vals.getD i 0 - 1))

/-- Claim C5 spec-side Sharpe ratio, modelled from the spec interface:
identical to the code formula of line 432, except that the risk-free
rate is a parameter instead of the fixed local constant. -/
noncomputable def sharpe_ratioSpec (riskFreeRate : ℝ) (rs : List ℚ) : EFloat ℝ :=
  safe_float
    (if 0 < (volatilityE rs).toR then
      .fin (((mean_returnE rs).toR - riskFreeRate) / (volatilityE rs).toR)
    else .fin 0)
    (.fin 0)

/-- Claim C5 spec-side Sortino ratio with the rate as a parameter. -/
noncomputable def sortino_ratioSpec (riskFreeRate : ℝ) (rs : List ℚ) : EFloat ℝ :=
  safe_float
    (if 0 < (downside_volatilityE rs).toR then
      .fin (((mean_returnE rs).toR - riskFreeRate) / (downside_volatilityE rs).toR)
    else .fin 0)
    (.fin 0)

/-- Claim C5 spec-side operation, modelled from the interface the spec
prescribes — `computeRiskMetrics(portfolioId, currentTotalValue,
valuationSeries, riskFreeRate = 0.02)` — in which the risk-free rate
is an overridable parameter of the public operation. -/
noncomputable def computeRiskMetricsSpec (portfolio : Portfolio)
    (historical_data : List ℚ) (riskFreeRate : ℝ) : RiskMetrics :=
  if historical_data = [] then zeroMetrics portfolio.id
  else
    let returns := buildReturns historical_data
    if returns.length < 2 then zeroMetrics portfolio.id
    else
      { portfolio_id := portfolio.id
        value_at_risk := (var_95E returns portfolio.total_value_usd).abs
        conditional_var := (cvar_95E returns portfolio.total_value_usd).abs
        max_drawdown := (max_drawdownE returns).abs
        sharpe_ratio := sharpe_ratioSpec riskFreeRate returns
        sortino_ratio := sortino_ratioSpec riskFreeRate returns
        volatility := volatilityE returns
        skewness := skewnessE returns
        kurtosis := kurtosisE returns }

namespace EFloat

@[simp] theorem isna_fin (x : α) : (EFloat.fin x).isna = false := rfl

@[simp] theorem isinf_fin (x : α) : (EFloat.fin x).isinf = false := rfl

@[simp] theorem isFiniteB_fin (x : α) : (EFloat.fin x).isFiniteB = true := rfl

@[simp] theorem toFin_fin (x : α) : (EFloat.fin x).toFin = some x := rfl

@[simp] theorem toR_fin (x : ℝ) : (EFloat.fin x).toR = x := rfl

@[simp] theorem abs_fin (x : ℝ) : (EFloat.fin x).abs = .fin |x| := rfl

@[simp] theorem map_fin (f : α → β) (x : α) : (EFloat.fin x).map f = .fin (f x) := rfl

end EFloat

@[simp] theorem safe_float_fin (x : α) (d : EFloat α) :
    safe_float (.fin x) d = .fin x := rfl

@[simp] theorem safe_float_nan (d : EFloat α) : safe_float .nan d = d := rfl

@[simp] theorem safe_float_inf (d : EFloat α) : safe_float .inf d = d := rfl

@[simp] theorem safe_float_ninf (d : EFloat α) : safe_float .ninf d = d := rfl

theorem safe_float_isFiniteB (x : EFloat α) (d : α) :
    (safe_float x (.fin d)).isFiniteB = true := by
  cases x <;> rfl

theorem clean_dictV (kvs : List (String × PyVal)) :
    clean_data_for_json (.dictV kvs) =
      .dictV (kvs.map (fun kv => (kv.1, clean_data_for_json kv.2))) := by
  simp [clean_data_for_json, List.map_attach]

theorem clean_listV (xs : List PyVal) :
    clean_data_for_json (.listV xs) = .listV (xs.map clean_data_for_json) := by
  simp [clean_data_for_json, List.map_attach]

@[simp] theorem clean_floatV (v : EFloat ℚ) :
    clean_data_for_json (.floatV v) = .floatV (safe_float v (.fin 0)) := by
  simp [clean_data_for_json]

@[simp] theorem clean_noneV : clean_data_for_json .noneV = .noneV := by
  simp [clean_data_for_json]

@[simp] theorem clean_intV (n : ℤ) : clean_data_for_json (.intV n) = .intV n := by
  simp [clean_data_for_json]

@[simp] theorem clean_strV (s : String) :
    clean_data_for_json (.strV s) = .strV s := by
  simp [clean_data_for_json]

@[simp] theorem clean_boolV (b : Bool) :
    clean_data_for_json (.boolV b) = .boolV b := by
  simp [clean_data_for_json]

theorem clean_data_for_json_idem :
    (v : PyVal) →
      clean_data_for_json (clean_data_for_json v) = clean_data_for_json v
  | .dictV kvs => by
    rw [clean_dictV, clean_dictV, List.map_map]
    refine congrArg _ (List.map_congr_left ?_)
    intro kv hkv
    simp only [Function.comp_apply]
    rw [clean_data_for_json_idem kv.2]
  | .listV xs => by
    rw [clean_listV, clean_listV, List.map_map]
    refine congrArg _ (List.map_congr_left ?_)
    intro x hx
    simp only [Function.comp_apply]
    rw [clean_data_for_json_idem x]
  | .floatV v => by cases v <;> simp
  | .noneV => by simp
  | .intV n => by simp
  | .strV s => by simp
  | .boolV b => by simp
termination_by v => sizeOf v
decreasing_by
  · have h1 := List.sizeOf_lt_of_mem hkv
    obtain ⟨a, b⟩ := kv
    simp only [PyVal.dictV.sizeOf_spec, Prod.mk.sizeOf_spec] at h1 ⊢
    omega
  · have h1 := List.sizeOf_lt_of_mem hx
    simp only [PyVal.listV.sizeOf_spec] at h1 ⊢
    omega

theorem list_sum_ratCast (l : List ℚ) :
    ((l.sum : ℚ) : ℝ) = (l.map (fun q : ℚ => (q : ℝ))).sum := by
  induction l with
  | nil => simp
  | cons a t ih =>
    rw [List.sum_cons, Rat.cast_add, ih, List.map_cons, List.sum_cons]

theorem meanQ_cast (rs : List ℚ) : ((meanQ rs : ℚ) : ℝ) = specMean rs := by
  unfold meanQ specMean
  push_cast [list_sum_ratCast]
  ring

theorem centralMoment_cast (rs : List ℚ) (k : ℕ) :
    ((centralMoment rs k : ℚ) : ℝ) =
      (rs.map (fun r : ℚ => ((r : ℝ) - specMean rs) ^ k)).sum := by
  unfold centralMoment
  rw [list_sum_ratCast, List.map_map]
  refine congrArg _ (List.map_congr_left ?_)
  intro r hr
  simp only [Function.comp_apply]
  push_cast [meanQ_cast]
  ring

theorem stdR_eq_specDailyStd (rs : List ℚ) : stdR rs = specDailyStd rs := by
  unfold stdR specDailyStd varQ
  congr 1
  push_cast [centralMoment_cast]
  ring

theorem calc_degenerate (p : Portfolio) (vals : List ℚ)
    (h : (buildReturns vals).length < 2) :
    calculate_portfolio_metrics p vals = zeroMetrics p.id := by
  unfold calculate_portfolio_metrics
  by_cases hv : vals = []
  · rw [if_pos hv]
  · rw [if_neg hv]
    simp only
    rw [if_pos h]

theorem calc_main (p : Portfolio) (vals : List ℚ)
    (h : 2 ≤ (buildReturns vals).length) :
    calculate_portfolio_metrics p vals =
      { portfolio_id := p.id
        value_at_risk := (var_95E (buildReturns vals) p.total_value_usd).abs
        conditional_var := (cvar_95E (buildReturns vals) p.total_value_usd).abs
        max_drawdown := (max_drawdownE (buildReturns vals)).abs
        sharpe_ratio := sharpe_ratioE (buildReturns vals)
        sortino_ratio := sortino_ratioE (buildReturns vals)
        volatility := volatilityE (buildReturns vals)
        skewness := skewnessE (buildReturns vals)
        kurtosis := kurtosisE (buildReturns vals) } := by
  have hne : ¬ vals = [] := by
    intro he
    rw [he] at h
    simp [buildReturns, rawReturns] at h
  have h2 : ¬ (buildReturns vals).length < 2 := by omega
  unfold calculate_portfolio_metrics
  rw [if_neg hne]
  simp only
  rw [if_neg h2]

theorem abs_safe_float_isFiniteB (x : EFloat ℝ) (d : ℝ) :
    ((safe_float x (.fin d)).abs).isFiniteB = true := by
  cases x <;> rfl

theorem calcChecked_degenerate (p : Portfolio) (vals : List ℚ)
    (h : (buildReturns vals).length < 2) :
    calcChecked p vals = some (zeroMetrics p.id) := by
  unfold calcChecked
  by_cases hv : vals = []
  · rw [if_pos hv]
  · rw [if_neg hv]
    simp only
    rw [if_pos h]

/-- Claim C1: for every portfolio and every valuation series —
including series containing zero, negative, or extreme values — each
floating-point field of the record returned by
`calculate_portfolio_metrics` (value_at_risk, conditional_var,
max_drawdown, sharpe_ratio, sortino_ratio, volatility, skewness,
kurtosis) is finite: not not-a-number and not an infinity. -/
theorem C1_all_metric_fields_finite (p : Portfolio) (vals : List ℚ) :
    (calculate_portfolio_metrics p vals).value_at_risk.isFiniteB = true ∧
    (calculate_portfolio_metrics p vals).conditional_var.isFiniteB = true ∧
    (calculate_portfolio_metrics p vals).max_drawdown.isFiniteB = true ∧
    (calculate_portfolio_metrics p vals).sharpe_ratio.isFiniteB = true ∧
    (calculate_portfolio_metrics p vals).sortino_ratio.isFiniteB = true ∧
    (calculate_portfolio_metrics p vals).volatility.isFiniteB = true ∧
    (calculate_portfolio_metrics p vals).skewness.isFiniteB = true ∧
    (calculate_portfolio_metrics p vals).kurtosis.isFiniteB = true := by
  by_cases h : (buildReturns vals).length < 2
  · rw [calc_degenerate p vals h]
    exact ⟨rfl, rfl, rfl, rfl, rfl, rfl, rfl, rfl⟩
  · push_neg at h
    rw [calc_main p vals h]
    dsimp only
    unfold var_95E cvar_95E max_drawdownE sharpe_ratioE sortino_ratioE
      volatilityE skewnessE kurtosisE
    exact ⟨abs_safe_float_isFiniteB _ _, abs_safe_float_isFiniteB _ _,
      abs_safe_float_isFiniteB _ _, safe_float_isFiniteB _ _,
      safe_float_isFiniteB _ _, safe_float_isFiniteB _ _,
      safe_float_isFiniteB _ _, safe_float_isFiniteB _ _⟩

/-- Claim C2: whenever the usable return series has fewer than two
observations — empty valuation series, a single point, or a series
whose derived returns shrink below two after removal of non-finite
values — the calculator returns the record whose every numeric field
is exactly `0.0` (`zeroMetrics`), and the checked body raises no
exception (it returns `some` of that record). -/
theorem C2_degenerate_returns_zero_record (p : Portfolio) (vals : List ℚ)
    (h : (buildReturns vals).length < 2) :
    calculate_portfolio_metrics p vals = zeroMetrics p.id ∧
      calcChecked p vals = some (zeroMetrics p.id) :=
  ⟨calc_degenerate p vals h, calcChecked_degenerate p vals h⟩

/-- Witness for C2 at the spec scenario `[100, 0, 50]`: the return
through the zero valuation is discarded, one return remains, and the
all-zero record is returned. -/
theorem C2_degenerate_returns_zero_record_witness :
    (buildReturns [100, 0, 50]).length < 2 ∧
      (calculate_portfolio_metrics ⟨"p1", 50⟩ [100, 0, 50] = zeroMetrics "p1" ∧
        calcChecked ⟨"p1", 50⟩ [100, 0, 50] = some (zeroMetrics "p1")) := by
  have hl : (buildReturns [100, 0, 50]).length < 2 := by
    norm_num [buildReturns, rawReturns, divReturn, EFloat.toFin, List.filterMap]
  exact ⟨hl, C2_degenerate_returns_zero_record ⟨"p1", 50⟩ [100, 0, 50] hl⟩

theorem buildReturns_eq_specReturns :
    ∀ vals : List ℚ, buildReturns vals = specReturns vals
  | [] => rfl
  | [_] => rfl
  | a :: b :: t => by
    have ih := buildReturns_eq_specReturns (b :: t)
    have hspec : specReturns (a :: b :: t) =
        (if a = 0 then none else some (b / a - 1)).toList ++ specReturns (b :: t) := by
      unfold specReturns
      have hlen : (a :: b :: t).length - 1 = ((b :: t).length - 1) + 1 := by
        simp
      rw [hlen, List.range_succ_eq_map, List.filterMap_cons, List.filterMap_map]
      have harg : ∀ i : ℕ,
          ((fun i =>
              if (a :: b :: t).getD i 0 = 0 then none
              else some ((a :: b :: t).getD (i + 1) 0 / (a :: b :: t).getD i 0 - 1)) ∘
            Nat.succ) i =
          (fun i =>
              if (b :: t).getD i 0 = 0 then none
              else some ((b :: t).getD (i + 1) 0 / (b :: t).getD i 0 - 1)) i := by
        intro i
        simp [List.getD_cons_succ]
      rw [funext harg]
      by_cases ha : a = 0 <;> simp [ha]
    have hbuild : buildReturns (a :: b :: t) =
        (EFloat.toFin (divReturn a b)).toList ++ buildReturns (b :: t) := by
      unfold buildReturns rawReturns
      rw [List.tail_cons, List.zipWith_cons_cons, List.filterMap_cons]
      cases hdr : EFloat.toFin (divReturn a b) <;> simp [hdr]
    rw [hbuild, hspec, ih]
    congr 1
    unfold divReturn
    by_cases ha : a = 0
    · rw [if_pos ha, if_pos ha]
      by_cases hb : b = 0
      · rw [if_pos hb]; rfl
      · rw [if_neg hb]
        by_cases hb2 : 0 < b
        · rw [if_pos hb2]; rfl
        · rw [if_neg hb2]; rfl
    · rw [if_neg ha, if_neg ha]; rfl

theorem length_filterMap_toFin (l : List (EFloat α)) :
    (l.filterMap EFloat.toFin).length = l.countP (fun e => e.isFiniteB) := by
  induction l with
  | nil => rfl
  | cons x t ih =>
    cases x <;> simp [List.filterMap_cons, List.countP_cons, ih, EFloat.toFin,
      EFloat.isFiniteB]

/-- Claim C3: the return-series builder produces exactly the sequence
of simple returns `r_i = v_i / v_(i-1) - 1` over consecutive pairs in
traversal order (the first valuation contributing no return), removes
non-finite derived returns outright, and hence yields
`n - 1` raw returns of which exactly the non-finite ones are missing
from the usable series. -/
theorem C3_return_builder (vals : List ℚ) :
    buildReturns vals = specReturns vals ∧
    (rawReturns vals).length = vals.length - 1 ∧
    (buildReturns vals).length =
      (vals.length - 1) - (rawReturns vals).countP (fun e => !e.isFiniteB) := by
  have hraw : (rawReturns vals).length = vals.length - 1 := by
    unfold rawReturns
    rw [List.length_zipWith, List.length_tail]
    omega
  refine ⟨buildReturns_eq_specReturns vals, hraw, ?_⟩
  have hsplit := List.length_eq_countP_add_countP
    (fun e : EFloat ℚ => e.isFiniteB) (rawReturns vals)
  have hfin : (buildReturns vals).length =
      (rawReturns vals).countP (fun e => e.isFiniteB) :=
    length_filterMap_toFin (rawReturns vals)
  have hnot : (rawReturns vals).countP (fun e => !e.isFiniteB) =
      (rawReturns vals).countP (fun e => decide ¬ e.isFiniteB = true) := by
    refine List.countP_congr ?_
    intro e he
    cases e <;> simp [EFloat.isFiniteB]
  rw [hfin, hnot]
  omega

/-- Claim C4: the calculator never lets an exception escape for any
well-formed invocation: the checked body, in which the one operation
that can raise (`np.percentile` on an empty array) is made explicit,
always returns `some` record, and that record is exactly the one the
total model produces — for all-zero, all-identical, single-sign, or
any other shape of series. -/
theorem C4_never_raises (p : Portfolio) (vals : List ℚ) :
    calcChecked p vals = some (calculate_portfolio_metrics p vals) := by
  by_cases h : (buildReturns vals).length < 2
  · rw [calc_degenerate p vals h, calcChecked_degenerate p vals h]
  · push_neg at h
    have hne : ¬ vals = [] := by
      intro he
      rw [he] at h
      simp [buildReturns, rawReturns] at h
    have hrs : ¬ buildReturns vals = [] := by
      intro he
      rw [he] at h
      simp at h
    rw [calc_main p vals h]
    unfold calcChecked
    rw [if_neg hne]
    simp only
    rw [if_neg (by omega : ¬ (buildReturns vals).length < 2)]
    unfold percentileOpt
    rw [if_neg hrs]
    simp only [Option.some.injEq]
    unfold var_95E cvar_95E
    rfl

theorem calcSpec_main (p : Portfolio) (vals : List ℚ) (rate : ℝ)
    (h : 2 ≤ (buildReturns vals).length) :
    computeRiskMetricsSpec p vals rate =
      { portfolio_id := p.id
        value_at_risk := (var_95E (buildReturns vals) p.total_value_usd).abs
        conditional_var := (cvar_95E (buildReturns vals) p.total_value_usd).abs
        max_drawdown := (max_drawdownE (buildReturns vals)).abs
        sharpe_ratio := sharpe_ratioSpec rate (buildReturns vals)
        sortino_ratio := sortino_ratioSpec rate (buildReturns vals)
        volatility := volatilityE (buildReturns vals)
        skewness := skewnessE (buildReturns vals)
        kurtosis := kurtosisE (buildReturns vals) } := by
  have hne : ¬ vals = [] := by
    intro he
    rw [he] at h
    simp [buildReturns, rawReturns] at h
  have h2 : ¬ (buildReturns vals).length < 2 := by omega
  unfold computeRiskMetricsSpec
  rw [if_neg hne]
  simp only
  rw [if_neg h2]

/-- Claim C5 (amended): the risk-free rate is the named local constant
`risk_free_rate = 0.02` of line 431, not a parameter of the public
operation — the code signature takes only the portfolio and the
valuation series, so no caller can override the rate, and the output
always coincides with the spec operation instantiated at
`riskFreeRate = 0.02`. -/
theorem C5_amended_rate_is_fixed_local (p : Portfolio) (vals : List ℚ) :
    calculate_portfolio_metrics p vals = computeRiskMetricsSpec p vals risk_free_rate := rfl

theorem buildReturns_example_110 :
    buildReturns [100, 110, 100] = [1/10, -1/11] := by
  norm_num [buildReturns, rawReturns, divReturn, EFloat.toFin, List.filterMap]

theorem stdR_example_110 : stdR [1/10, -1/11] = 21/220 := by
  unfold stdR
  rw [show varQ [1/10, -1/11] = 441/48400 by norm_num [varQ, centralMoment, meanQ]]
  rw [show ((441/48400 : ℚ) : ℝ) = (21/220) ^ 2 by norm_num]
  exact Real.sqrt_sq (by norm_num)

/-- Claim C5 counterexample: the claim says a caller can supply a
risk-free rate other than 2 percent and see it reflected in the
returned `sharpe_ratio`; but `calculate_portfolio_metrics` has no rate
argument, and on the concrete input `[100, 110, 100]` its output
equals the spec operation at the fixed rate `0.02` and differs from
the spec operation at the alternative rate `0.05` — no invocation of
the code can produce the behaviour the claim asserts. -/
theorem C5_counterexample_rate_not_overridable :
    (calculate_portfolio_metrics ⟨"p1", 100⟩ [100, 110, 100]).sharpe_ratio =
      (computeRiskMetricsSpec ⟨"p1", 100⟩ [100, 110, 100] (1/50)).sharpe_ratio ∧
    (calculate_portfolio_metrics ⟨"p1", 100⟩ [100, 110, 100]).sharpe_ratio ≠
      (computeRiskMetricsSpec ⟨"p1", 100⟩ [100, 110, 100] (1/20)).sharpe_ratio := by
  have h2 : 2 ≤ (buildReturns [100, 110, 100]).length := by
    rw [buildReturns_example_110]
    norm_num
  have hvol : (volatilityE [1/10, -1/11]).toR = (21/220 : ℝ) * Real.sqrt 252 := by
    unfold volatilityE
    rw [safe_float_fin, EFloat.toR_fin, stdR_example_110]
  have hvolpos : 0 < (volatilityE [1/10, -1/11]).toR := by
    rw [hvol]
    positivity
  have hmean : (mean_returnE [1/10, -1/11]).toR = (63/55 : ℝ) := by
    unfold mean_returnE
    rw [safe_float_fin, EFloat.toR_fin]
    rw [show meanQ [1/10, -1/11] = 1/220 by norm_num [meanQ]]
    norm_num
  constructor
  · rw [show (1/50 : ℝ) = risk_free_rate by norm_num [risk_free_rate]]
    rfl
  · rw [calc_main _ _ h2, calcSpec_main _ _ _ h2]
    dsimp only
    rw [buildReturns_example_110]
    unfold sharpe_ratioE sharpe_ratioSpec
    rw [if_pos hvolpos, safe_float_fin, if_pos hvolpos, safe_float_fin]
    rw [hmean, hvol, show risk_free_rate = (1/50 : ℝ) by norm_num [risk_free_rate]]
    intro hcontra
    rw [EFloat.fin.injEq] at hcontra
    have hv : (21/220 : ℝ) * Real.sqrt 252 ≠ 0 := by positivity
    field_simp at hcontra
    have hs : (0 : ℝ) < Real.sqrt 252 := Real.sqrt_pos.mpr (by norm_num)
    ring_nf at hcontra
    nlinarith [hcontra, hs]

/-- Claim C6: for every return series with at least two observations,
the `volatility` field equals the daily standard deviation of the
return sample (square root of the mean squared deviation) multiplied
by the square root of the annualization constant `T = 252`. -/
theorem C6_volatility_annualized_std (p : Portfolio) (vals : List ℚ)
    (h : 2 ≤ (buildReturns vals).length) :
    (calculate_portfolio_metrics p vals).volatility =
      .fin (specDailyStd (buildReturns vals) * Real.sqrt 252) := by
  rw [calc_main p vals h]
  dsimp only
  unfold volatilityE
  rw [safe_float_fin, stdR_eq_specDailyStd]

theorem buildReturns_example_121 :
    buildReturns [100, 110, 121] = [1/10, 1/10] := by
  norm_num [buildReturns, rawReturns, divReturn, EFloat.toFin, List.filterMap]

/-- Witness for C6 at the valuation series `[100, 110, 121]`. -/
theorem C6_volatility_annualized_std_witness :
    2 ≤ (buildReturns [100, 110, 121]).length ∧
      (calculate_portfolio_metrics ⟨"p1", 100⟩ [100, 110, 121]).volatility =
        .fin (specDailyStd (buildReturns [100, 110, 121]) * Real.sqrt 252) := by
  have h2 : 2 ≤ (buildReturns [100, 110, 121]).length := by
    rw [buildReturns_example_121]
    norm_num
  exact ⟨h2, C6_volatility_annualized_std ⟨"p1", 100⟩ [100, 110, 121] h2⟩

theorem volatilityE_toR (rs : List ℚ) :
    (volatilityE rs).toR = specDailyStd rs * Real.sqrt 252 := by
  unfold volatilityE
  rw [safe_float_fin, EFloat.toR_fin, stdR_eq_specDailyStd]

theorem mean_returnE_toR (rs : List ℚ) :
    (mean_returnE rs).toR = 252 * specMean rs := by
  unfold mean_returnE
  rw [safe_float_fin, EFloat.toR_fin]
  push_cast [meanQ_cast]
  ring

theorem centralMoment2_of_constant (rs : List ℚ) (c : ℚ)
    (hc : ∀ r ∈ rs, r = c) (hn : rs ≠ []) : centralMoment rs 2 = 0 := by
  have hlen : (rs.length : ℚ) ≠ 0 := by
    have h := List.length_pos.mpr hn
    exact_mod_cast Nat.pos_iff_ne_zero.mp h
  have hm : meanQ rs = c := by
    unfold meanQ
    rw [List.sum_eq_card_nsmul rs c hc, nsmul_eq_mul]
    field_simp
  unfold centralMoment
  refine List.sum_eq_zero ?_
  intro x hx
  obtain ⟨r, hr, hrx⟩ := List.mem_map.mp hx
  rw [← hrx, hm, hc r hr]
  ring

/-- Claim C7: with at least two returns, the `sharpe_ratio` field is
`(annualized mean return - risk-free rate) / annualized volatility`
when the annualized volatility is strictly positive, exactly `0.0`
when it is zero; in particular a constant return series has zero
volatility and zero Sharpe ratio. -/
theorem C7_sharpe_ratio (p : Portfolio) (vals : List ℚ)
    (h : 2 ≤ (buildReturns vals).length) :
    (0 < specDailyStd (buildReturns vals) * Real.sqrt 252 →
      (calculate_portfolio_metrics p vals).sharpe_ratio =
        .fin ((252 * specMean (buildReturns vals) - risk_free_rate) /
          (specDailyStd (buildReturns vals) * Real.sqrt 252))) ∧
    (specDailyStd (buildReturns vals) * Real.sqrt 252 = 0 →
      (calculate_portfolio_metrics p vals).sharpe_ratio = .fin 0) ∧
    (∀ c : ℚ, (∀ r ∈ buildReturns vals, r = c) →
      (calculate_portfolio_metrics p vals).volatility = .fin 0 ∧
        (calculate_portfolio_metrics p vals).sharpe_ratio = .fin 0) := by
  rw [calc_main p vals h]
  dsimp only
  refine ⟨?_, ?_, ?_⟩
  · intro hpos
    have hpos2 : 0 < (volatilityE (buildReturns vals)).toR := by
      rw [volatilityE_toR]
      exact hpos
    unfold sharpe_ratioE
    rw [if_pos hpos2, safe_float_fin, mean_returnE_toR, volatilityE_toR]
  · intro hzero
    have hzero2 : ¬ 0 < (volatilityE (buildReturns vals)).toR := by
      rw [volatilityE_toR, hzero]
      exact lt_irrefl 0
    unfold sharpe_ratioE
    rw [if_neg hzero2, safe_float_fin]
  · intro c hc
    have hn : buildReturns vals ≠ [] := by
      intro he
      rw [he] at h
      simp at h
    have hM2 : centralMoment (buildReturns vals) 2 = 0 :=
      centralMoment2_of_constant (buildReturns vals) c hc hn
    have hstd : stdR (buildReturns vals) = 0 := by
      unfold stdR varQ
      rw [hM2]
      norm_num
    have hvol : volatilityE (buildReturns vals) = .fin 0 := by
      unfold volatilityE
      rw [safe_float_fin, hstd, zero_mul]
    refine ⟨hvol, ?_⟩
    have hzero2 : ¬ 0 < (volatilityE (buildReturns vals)).toR := by
      rw [hvol, EFloat.toR_fin]
      exact lt_irrefl 0
    unfold sharpe_ratioE
    rw [if_neg hzero2, safe_float_fin]

/-- Witness for C7 at the valuation series `[100, 110, 121]`. -/
theorem C7_sharpe_ratio_witness :
    2 ≤ (buildReturns [100, 110, 121]).length ∧
      ((0 < specDailyStd (buildReturns [100, 110, 121]) * Real.sqrt 252 →
        (calculate_portfolio_metrics ⟨"p1", 100⟩ [100, 110, 121]).sharpe_ratio =
          .fin ((252 * specMean (buildReturns [100, 110, 121]) - risk_free_rate) /
            (specDailyStd (buildReturns [100, 110, 121]) * Real.sqrt 252))) ∧
      (specDailyStd (buildReturns [100, 110, 121]) * Real.sqrt 252 = 0 →
        (calculate_portfolio_metrics ⟨"p1", 100⟩ [100, 110, 121]).sharpe_ratio = .fin 0) ∧
      (∀ c : ℚ, (∀ r ∈ buildReturns [100, 110, 121], r = c) →
        (calculate_portfolio_metrics ⟨"p1", 100⟩ [100, 110, 121]).volatility = .fin 0 ∧
          (calculate_portfolio_metrics ⟨"p1", 100⟩ [100, 110, 121]).sharpe_ratio = .fin 0)) := by
  have h2 : 2 ≤ (buildReturns [100, 110, 121]).length := by
    rw [buildReturns_example_121]
    norm_num
  exact ⟨h2, C7_sharpe_ratio ⟨"p1", 100⟩ [100, 110, 121] h2⟩

/-- Claim C8: with at least two returns, the `conditional_var` field
is the absolute value of the mean of the returns at or below the
linearly interpolated 5th percentile, scaled by the current total
value; and it is exactly `0.0` when no return lies at or below that
threshold. -/
theorem C8_conditional_var (p : Portfolio) (vals : List ℚ)
    (h : 2 ≤ (buildReturns vals).length) :
    (¬ (buildReturns vals).filter
        (fun r => r ≤ percentileQ (buildReturns vals) 5) = [] →
      (calculate_portfolio_metrics p vals).conditional_var =
        .fin |specMean ((buildReturns vals).filter
            (fun r => r ≤ percentileQ (buildReturns vals) 5)) *
          (p.total_value_usd : ℝ)|) ∧
    ((buildReturns vals).filter
        (fun r => r ≤ percentileQ (buildReturns vals) 5) = [] →
      (calculate_portfolio_metrics p vals).conditional_var = .fin 0) := by
  rw [calc_main p vals h]
  dsimp only
  constructor
  · intro hne
    have hpos : 0 < ((buildReturns vals).filter
        (fun r => r ≤ percentileQ (buildReturns vals) 5)).length :=
      List.length_pos.mpr hne
    unfold cvar_95E
    rw [if_pos hpos, safe_float_fin, EFloat.abs_fin]
    congr 1
    push_cast [meanQ_cast]
    ring
  · intro he
    have hzero : ¬ 0 < ((buildReturns vals).filter
        (fun r => r ≤ percentileQ (buildReturns vals) 5)).length := by
      rw [he]
      exact lt_irrefl 0
    unfold cvar_95E
    rw [if_neg hzero, safe_float_fin, EFloat.abs_fin, abs_zero]

/-- Witness for C8 at the valuation series `[100, 110, 121]`. -/
theorem C8_conditional_var_witness :
    2 ≤ (buildReturns [100, 110, 121]).length ∧
      ((¬ (buildReturns [100, 110, 121]).filter
          (fun r => r ≤ percentileQ (buildReturns [100, 110, 121]) 5) = [] →
        (calculate_portfolio_metrics ⟨"p1", 100⟩ [100, 110, 121]).conditional_var =
          .fin |specMean ((buildReturns [100, 110, 121]).filter
              (fun r => r ≤ percentileQ (buildReturns [100, 110, 121]) 5)) *
            ((100 : ℚ) : ℝ)|) ∧
      ((buildReturns [100, 110, 121]).filter
          (fun r => r ≤ percentileQ (buildReturns [100, 110, 121]) 5) = [] →
        (calculate_portfolio_metrics ⟨"p1", 100⟩ [100, 110, 121]).conditional_var =
          .fin 0)) := by
  have h2 : 2 ≤ (buildReturns [100, 110, 121]).length := by
    rw [buildReturns_example_121]
    norm_num
  exact ⟨h2, C8_conditional_var ⟨"p1", 100⟩ [100, 110, 121] h2⟩

/-- Claim C10: with exactly two usable returns the `skewness` field is
exactly `0.0`, and with fewer than four usable returns the `kurtosis`
field is exactly `0.0`; the pandas moment estimators are undefined at
those sample sizes, produce not-a-number, and `safe_float` maps it to
the default. -/
theorem C10_tiny_sample_skew_kurtosis (p : Portfolio) (vals : List ℚ) :
    ((buildReturns vals).length = 2 →
      (calculate_portfolio_metrics p vals).skewness = .fin 0) ∧
    ((buildReturns vals).length < 4 →
      (calculate_portfolio_metrics p vals).kurtosis = .fin 0) := by
  constructor
  · intro h2
    rw [calc_main p vals (by omega)]
    dsimp only
    unfold skewnessE skewE
    rw [if_pos (by omega : (buildReturns vals).length < 3)]
    rfl
  · intro h4
    by_cases hlen : (buildReturns vals).length < 2
    · rw [calc_degenerate p vals hlen]
      rfl
    · push_neg at hlen
      rw [calc_main p vals hlen]
      dsimp only
      unfold kurtosisE kurtE
      rw [if_pos h4]
      rfl

/-- Witness for C10 at the valuation series `[100, 110, 121]`, whose
usable return series has exactly two observations. -/
theorem C10_tiny_sample_skew_kurtosis_witness :
    ((buildReturns [100, 110, 121]).length = 2 ∧
      (calculate_portfolio_metrics ⟨"p1", 100⟩ [100, 110, 121]).skewness = .fin 0) ∧
    ((buildReturns [100, 110, 121]).length < 4 ∧
      (calculate_portfolio_metrics ⟨"p1", 100⟩ [100, 110, 121]).kurtosis = .fin 0) := by
  have h2 : (buildReturns [100, 110, 121]).length = 2 := by
    rw [buildReturns_example_121]
    rfl
  have h4 : (buildReturns [100, 110, 121]).length < 4 := by
    omega
  have hthm := C10_tiny_sample_skew_kurtosis ⟨"p1", 100⟩ [100, 110, 121]
  exact ⟨⟨h2, hthm.1 h2⟩, ⟨h4, hthm.2 h4⟩⟩

/-- Claim C9: the standalone sanitizer is idempotent — at the float
leaves for every default (`safe_float`), and as the recursive
structural transform (`clean_data_for_json`) — it is the identity on
already-finite floats and on non-numeric scalars, it recurses through
every value of a keyed mapping and every element of a sequence, and it
replaces exactly the not-a-number and infinite floats by the
default. -/
theorem C9_sanitize_idempotent :
    (∀ x d : EFloat ℚ, safe_float (safe_float x d) d = safe_float x d) ∧
    (∀ v : PyVal,
      clean_data_for_json (clean_data_for_json v) = clean_data_for_json v) ∧
    (∀ q : ℚ, clean_data_for_json (.floatV (.fin q)) = .floatV (.fin q)) ∧
    (∀ d : EFloat ℚ,
      safe_float .nan d = d ∧ safe_float .inf d = d ∧ safe_float .ninf d = d) ∧
    (∀ n : ℤ, clean_data_for_json (.intV n) = .intV n) ∧
    (∀ s : String, clean_data_for_json (.strV s) = .strV s) ∧
    (∀ b : Bool, clean_data_for_json (.boolV b) = .boolV b) ∧
    clean_data_for_json .noneV = .noneV ∧
    (∀ kvs : List (String × PyVal),
      clean_data_for_json (.dictV kvs) =
        .dictV (kvs.map (fun kv => (kv.1, clean_data_for_json kv.2)))) ∧
    (∀ xs : List PyVal,
      clean_data_for_json (.listV xs) = .listV (xs.map clean_data_for_json)) := by
  refine ⟨?_, clean_data_for_json_idem, ?_, ?_, clean_intV, clean_strV,
    clean_boolV, clean_noneV, clean_dictV, clean_listV⟩
  · intro x d
    cases x <;> cases d <;> rfl
  · intro q
    simp
  · intro d
    exact ⟨rfl, rfl, rfl⟩
